import Mathlib

/-!
Verification development for the `cubyz-discord-relay` repository.

The definitions below are shallow embeddings of the TypeScript sources:
strings are `List Char`, the JavaScript `number` fields that matter are
`Int`, regular-expression matches are modelled by explicit recursive
scanners following the exact semantics of the patterns in the source,
and the stateful `BotConnectionManager`, `PlayerTracker` and
`IntegrationManager` objects become explicit state-passing functions that
also return the list of events they emit.
-/

namespace CubyzRelay

/-! ## Character classes

The JavaScript regular expressions in the source use the classes `\s`
(whitespace, also the class used by `String.prototype.trim`), the
line-terminator exclusions of `.`, the hexadecimal digits
`[0-9A-Fa-f]`, and the Unicode-aware class `[\p{L}\p{N}_\- ]`.
The letter class is modelled on the character ranges this development
exercises: ASCII letters and the Cyrillic block U+0400–U+04FF (all of
whose code points are letters). -/

/-- JavaScript whitespace class (`\s`, and the class trimmed by
`String.prototype.trim`), restricted to the characters exercised here. -/
def isWsChar (c : Char) : Bool :=
  c = ' ' || c = '\t' || c = '\n' || c = '\r' || c = '\x0b' || c = '\x0c' ||
  c = '\u00A0' || c = '\u2028' || c = '\u2029' || c = '\uFEFF'

/-- JavaScript line terminators: the characters that `.` does not match. -/
def isLineTerm (c : Char) : Bool :=
  c = '\n' || c = '\r' || c = '\u2028' || c = '\u2029'

/-- The regex class `[0-9A-Fa-f]`. -/
def isHexDigit (c : Char) : Bool :=
  ('0' ≤ c && c ≤ '9') || ('A' ≤ c && c ≤ 'F') || ('a' ≤ c && c ≤ 'f')

/-- The Unicode letter class `\p{L}`, modelled on the ranges this
development exercises (ASCII letters and the Cyrillic block). -/
def isUnicodeLetter (c : Char) : Bool :=
  c.isAlpha || (0x400 ≤ c.toNat && c.toNat ≤ 0x4FF)

/-- The Unicode number class `\p{N}`, modelled on ASCII digits. -/
def isUnicodeDigit (c : Char) : Bool :=
  c.isDigit

/-- Membership in the class `[\p{L}\p{N}_\- ]` kept by `cleanUsername`. -/
def isAllowedChar (c : Char) : Bool :=
  isUnicodeLetter c || isUnicodeDigit c || c = '_' || c = '-' || c = ' '

/-- Membership in the decoration class `[*~_[\]]` removed by
`cleanUsername`. -/
def isDecorChar (c : Char) : Bool :=
  c = '*' || c = '~' || c = '_' || c = '[' || c = ']'

/-- A username payload character in the per-character colour-code
pattern: a letter (any modelled script), a digit or a hyphen. -/
def isPayloadChar (c : Char) : Bool :=
  isUnicodeLetter c || isUnicodeDigit c || c = '-'

/-! ## String helpers (`trim`, newline collapsing) -/

/-- `String.prototype.trim`: drop whitespace from both ends. -/
def trimList (s : List Char) : List Char :=
  ((s.dropWhile isWsChar).reverse.dropWhile isWsChar).reverse

/-- Does the list start with a newline unit (`\r\n`, `\r` or `\n`, the
alternation of the regex `(?:\r\n|\r|\n)`)? -/
def isNewlineStart : List Char → Bool
  | '\r' :: _ => true
  | '\n' :: _ => true
  | _ => false

mutual

/-- `value.replace(/(?:\r\n|\r|\n){2,}/g, "\n")`: every maximal run of
two or more newline units becomes a single `'\n'`; single units are kept
verbatim.  At the start of a unit, when another unit follows it the run
has at least two units, so a single `'\n'` is emitted and the rest of
the run is skipped; otherwise the unit is copied. -/
def collapseNewlines : List Char → List Char
  | [] => []
  | '\r' :: '\n' :: rest =>
    if isNewlineStart rest then '\n' :: skipNewlineRun rest
    else '\r' :: '\n' :: collapseNewlines rest
  | '\r' :: rest =>
    if isNewlineStart rest then '\n' :: skipNewlineRun rest
    else '\r' :: collapseNewlines rest
  | '\n' :: rest =>
    if isNewlineStart rest then '\n' :: skipNewlineRun rest
    else '\n' :: collapseNewlines rest
  | c :: rest => c :: collapseNewlines rest

/-- Skip the remaining newline units of the current (already replaced)
run, then resume collapsing. -/
def skipNewlineRun : List Char → List Char
  | [] => []
  | '\r' :: '\n' :: rest => skipNewlineRun rest
  | '\r' :: rest => skipNewlineRun rest
  | '\n' :: rest => skipNewlineRun rest
  | c :: rest => c :: collapseNewlines rest

end

/-! ## `cleanUsername` (src/messageFormatter.ts)

```ts
export function cleanUsername(raw: string): string {
  let result = raw;
  result = result.replace(/§#[0-9A-Fa-f]{6}/g, "");
  result = result.replace(/#[0-9A-Fa-f]{6}/g, "");
  result = result.replace(/[*~_[\]]/g, "");
  result = result.replace(/[^\p{L}\p{N}_\- ]/gu, "");
  return result.trim();
}
```
-/

/-- Does the list start with six hexadecimal digits? -/
def startsWithSixHex (s : List Char) : Bool :=
  6 ≤ s.length && (s.take 6).all isHexDigit

/-- Does the list start with `#` followed by six hexadecimal digits
(the tail of the pattern `§#[0-9A-Fa-f]{6}` after its `§`)? -/
def isSectionTail : List Char → Bool
  | '#' :: t => startsWithSixHex t
  | _ => false

/-- `result.replace(/§#[0-9A-Fa-f]{6}/g, "")`: left-to-right scan that
removes each occurrence of `§#` followed by six hex digits.  The inner
match skips the seven matched characters after the `§`; its default
case is unreachable because the guard guarantees their presence. -/
def stripSectionColor : List Char → List Char
  | [] => []
  | c :: rest =>
    if c = '§' && isSectionTail rest then
      match rest with
      | _ :: _ :: _ :: _ :: _ :: _ :: _ :: rest' => stripSectionColor rest'
      | _ => []
    else c :: stripSectionColor rest

/-- `result.replace(/#[0-9A-Fa-f]{6}/g, "")`: left-to-right scan that
removes each occurrence of `#` followed by six hex digits.  The inner
match skips the six matched digits; its default case is unreachable
because the guard guarantees their presence. -/
def stripColorCodes : List Char → List Char
  | [] => []
  | c :: rest =>
    if c = '#' && startsWithSixHex rest then
      match rest with
      | _ :: _ :: _ :: _ :: _ :: _ :: rest' => stripColorCodes rest'
      | _ => []
    else c :: stripColorCodes rest

/-- `cleanUsername` from src/messageFormatter.ts. -/
def cleanUsername (raw : List Char) : List Char :=
  let r1 := stripSectionColor raw
  let r2 := stripColorCodes r1
  let r3 := r2.filter (fun c => !isDecorChar c)
  let r4 := r3.filter (fun c => isAllowedChar c)
  trimList r4

/-! ## The event parser (src/chatParser.ts, `parseChatMessage`)

The four regular expressions are modelled by explicit scanners with the
exact JavaScript semantics:

* `/^\[(.+?)\]\s*([\s\S]*)$/` — the input starts with `[`, the lazy
  group 1 is the shortest non-empty run of non-line-terminator
  characters followed by `]` (hence: one arbitrary non-terminator
  character and then everything up to the first `]`), `\s*` greedily
  eats whitespace, group 2 is the remainder (newlines allowed).
* `/^(.+?) joined$/` — the input ends in `" joined"` and the part
  before it is non-empty and free of line terminators (`.` does not
  match them); similarly `/^(.+?) left$/`.
* `/^(.+?) died(.*)$/` — split at the first occurrence of `" died"`
  that has a non-empty prefix; both groups must be free of line
  terminators, so the whole input must be.

The `timestamp` field (`new Date()`, capture time) is not modelled. -/

/-- The event kinds of `ChatMessage.type` (src/types.ts). -/
inductive EventType
  | join | leave | death | chat
deriving DecidableEq, Repr

/-- `ChatMessage` (src/types.ts), without the capture-time `timestamp`
field, which the parser fills with the wall clock. -/
structure ChatMessage where
  type : EventType
  rawUsername : List Char
  username : List Char
  message : Option (List Char)
deriving DecidableEq, Repr

/-- Split at the first `]`: returns the characters before it (which
must all be non-line-terminators) and those after it. -/
def splitAtClose : List Char → Option (List Char × List Char)
  | [] => none
  | ']' :: rest => some ([], rest)
  | c :: rest =>
    if isLineTerm c then none
    else (splitAtClose rest).map (fun p => (c :: p.1, p.2))

/-- Group extraction for `/^\[(.+?)\]\s*([\s\S]*)$/`: `some (name, rest)`
when the regex matches, with `name` group 1 and `rest` group 2 (after
the greedy `\s*`). -/
def chatMatch : List Char → Option (List Char × List Char)
  | '[' :: c :: rest =>
    if isLineTerm c then none
    else (splitAtClose rest).map (fun p => (c :: p.1, p.2.dropWhile isWsChar))
  | _ => none

/-- Group extraction for `/^(.+?) <suffix>$/` (used with `" joined"` and
`" left"`): `some name` when the input ends with the suffix and the part
before it is non-empty and free of line terminators. -/
def suffixMatch (suffix : List Char) (s : List Char) : Option (List Char) :=
  let n := s.length
  let m := suffix.length
  if n ≥ m + 1 && s.drop (n - m) = suffix then
    let name := s.take (n - m)
    if name.any isLineTerm then none else some name
  else none

/-- Split at the first occurrence of the pattern (anywhere, empty prefix
allowed): `some (before, after)`. -/
def splitFirstInfix (pat : List Char) : List Char → Option (List Char × List Char)
  | [] => none
  | c :: rest =>
    if pat.isPrefixOf (c :: rest) then some ([], (c :: rest).drop pat.length)
    else (splitFirstInfix pat rest).map (fun p => (c :: p.1, p.2))

/-- Group extraction for `/^(.+?) died(.*)$/`: `some (name, suffix)` with
`name` the non-empty prefix before the first `" died"` whose prefix is
non-empty; no line terminator may occur anywhere. -/
def diedMatch (s : List Char) : Option (List Char × List Char) :=
  if s.any isLineTerm then none
  else
    match s with
    | [] => none
    | c :: rest => (splitFirstInfix " died".data rest).map (fun p => (c :: p.1, p.2))

/-- `parseChatMessage` from src/chatParser.ts (the raw-protocol-string
parser): the four patterns are tried in order, first match wins. -/
def parseChatMessage (message : List Char) : Option ChatMessage :=
  match chatMatch message with
  | some (name, rest) =>
    let rawUsername := trimList name
    some { type := .chat, rawUsername := rawUsername,
           username := cleanUsername rawUsername,
           message := some (trimList rest) }
  | none =>
  match suffixMatch " joined".data message with
  | some name =>
    let rawUsername := trimList name
    some { type := .join, rawUsername := rawUsername,
           username := cleanUsername rawUsername, message := none }
  | none =>
  match suffixMatch " left".data message with
  | some name =>
    let rawUsername := trimList name
    some { type := .leave, rawUsername := rawUsername,
           username := cleanUsername rawUsername, message := none }
  | none =>
  match diedMatch message with
  | some (name, suffix) =>
    let rawUsername := trimList name
    some { type := .death, rawUsername := rawUsername,
           username := cleanUsername rawUsername,
           message := some (trimList ("died".data ++ suffix)) }
  | none => none

/-! ## `BotConnectionManager` (src/botConnection.ts)

The manager is embedded as explicit state passing.  The state records
the fields of the class that the claims are about: the `ConnectionState`
string, the retry attempt counter, the requested-stop flag, whether a
reconnect timer is armed, and whether a `CubyzConnection` object is
held.  Each operation returns the new state together with the trace of
what it did: the events it emitted and whether it called
`connection.close`.  The outcome of an `await connection.start()` is
external input and is passed as a parameter. -/

/-- `ConnectionState` (src/botConnection.ts). -/
inductive ConnState
  | stopped | connecting | connected
deriving DecidableEq, Repr

/-- `DisconnectReason` (src/botConnection.ts). -/
inductive Reason
  | server | stopped | retriesExhausted | error
deriving DecidableEq, Repr

/-- One element of an operation's trace: the events emitted through the
typed `EventEmitter` surface, plus a `closeConn` marker recording a call
to `connection.close({notify: true})`. -/
inductive Evt
  | connected
  | disconnected (reason : Reason) (attempts : Option Int)
  | reconnecting (attempt : Int) (maxRetries : Option Int) (delayMs : Int)
  | error
  | chat (m : ChatMessage)
  | closeConn
deriving DecidableEq, Repr

/-- `ConnectionRetryConfig` (src/types.ts). -/
structure RetryConfig where
  reconnect : Bool
  maxRetries : Int
  retryDelayMs : Int
deriving DecidableEq, Repr

/-- The mutable fields of `BotConnectionManager` that the lifecycle
claims concern. -/
structure Mgr where
  state : ConnState
  retryAttempt : Int
  requestedStop : Bool
  hasTimer : Bool
  hasConn : Bool
deriving DecidableEq, Repr

/-- The manager's fields at construction time. -/
def Mgr.init : Mgr :=
  { state := .stopped, retryAttempt := 0, requestedStop := false,
    hasTimer := false, hasConn := false }

/-- `stop()`: set the stop flag, cancel any pending reconnect timer,
reset the attempt counter, close and drop the connection if one is
held, move to Stopped, and emit `disconnected {reason: stopped}`. -/
def Mgr.stop (m : Mgr) : Mgr × List Evt :=
  let closeT : List Evt := if m.hasConn then [.closeConn] else []
  ({ state := .stopped, retryAttempt := 0, requestedStop := true,
     hasTimer := false, hasConn := false },
   closeT ++ [.disconnected .stopped none])

/-- `scheduleReconnect()`: clear any timer, bump the attempt counter;
with a positive `maxRetries` exceeded, emit
`disconnected {reason: retries-exhausted, attempts: attempt-1}` and move
to Stopped without arming a timer; otherwise emit `reconnecting` and arm
the one-shot timer. -/
def Mgr.scheduleReconnect (cfg : RetryConfig) (m : Mgr) : Mgr × List Evt :=
  let m := { m with hasTimer := false }
  let attempt := m.retryAttempt + 1
  let m := { m with retryAttempt := attempt }
  let maxR : Option Int := if cfg.maxRetries > 0 then some cfg.maxRetries else none
  if cfg.maxRetries > 0 ∧ attempt > cfg.maxRetries then
    ({ m with state := .stopped },
     [.disconnected .retriesExhausted (some (attempt - 1))])
  else
    ({ m with hasTimer := true },
     [.reconnecting attempt maxR cfg.retryDelayMs])

/-- `handleConnectionFailure(error)`: emit `error`, clean up the
connection, and either stop (emitting `disconnected {reason: error}`)
when stop was requested or reconnecting is disabled, or schedule a
reconnect. -/
def Mgr.handleConnectionFailure (cfg : RetryConfig) (m : Mgr) : Mgr × List Evt :=
  let m := { m with hasConn := false }
  let m := { m with state := .connecting }
  if m.requestedStop || !cfg.reconnect then
    ({ m with state := .stopped }, [.error, .disconnected .error none])
  else
    ((m.scheduleReconnect cfg).1, .error :: (m.scheduleReconnect cfg).2)

/-- Outcome of one `await connection.start()` attempt. -/
inductive ConnectOutcome
  | success | failure
deriving DecidableEq, Repr

/-- `tryConnect()` with the given attempt outcome: a no-op when stop was
requested; on success the `connected` listener fires (Connected state,
attempt counter reset, `connected` emitted); on failure
`handleConnectionFailure` runs. -/
def Mgr.tryConnect (cfg : RetryConfig) (o : ConnectOutcome) (m : Mgr) :
    Mgr × List Evt :=
  if m.requestedStop then (m, [])
  else
    match o with
    | .success =>
      ({ m with hasConn := true, state := .connected, retryAttempt := 0 },
       [.connected])
    | .failure => Mgr.handleConnectionFailure cfg { m with hasConn := false }

/-- `start()`: a no-op unless Stopped; otherwise clear the stop flag and
the attempt counter, move to Connecting and attempt a connection. -/
def Mgr.start (cfg : RetryConfig) (o : ConnectOutcome) (m : Mgr) :
    Mgr × List Evt :=
  if m.state ≠ .stopped then (m, [])
  else
    Mgr.tryConnect cfg o
      { m with requestedStop := false, retryAttempt := 0, state := .connecting }

/-- The reconnect timer firing: the timer slot is cleared; nothing
happens if stop was requested meanwhile, otherwise the connection is
retried. -/
def Mgr.timerFire (cfg : RetryConfig) (o : ConnectOutcome) (m : Mgr) :
    Mgr × List Evt :=
  let m := { m with hasTimer := false }
  if m.requestedStop then (m, []) else Mgr.tryConnect cfg o m

/-- The `disconnect` listener (`handleDisconnect`): clean up; when stop
was requested just move to Stopped; otherwise emit
`disconnected {reason: server}` and either stop (reconnect disabled) or
schedule a reconnect. -/
def Mgr.serverDisconnect (cfg : RetryConfig) (m : Mgr) : Mgr × List Evt :=
  let m := { m with hasConn := false }
  if m.requestedStop then ({ m with state := .stopped }, [])
  else
    let m := { m with state := .connecting }
    if !cfg.reconnect then
      ({ m with state := .stopped }, [.disconnected .server none])
    else
      ((m.scheduleReconnect cfg).1,
       .disconnected .server none :: (m.scheduleReconnect cfg).2)

/-- `sendChat(message)`: trim; empty input is a silent no-op; when not
Connected (or no connection object is held) throw the "not connected"
error; otherwise forward the trimmed text to the session. -/
def Mgr.sendChat (m : Mgr) (message : List Char) :
    Except (List Char) (Option (List Char)) :=
  let trimmed := trimList message
  if trimmed.length = 0 then .ok none
  else if m.state ≠ .connected || !m.hasConn then
    .error "Cannot send chat: not connected to Cubyz server.".data
  else .ok (some trimmed)

/-- `emitChatMessage`: drop events whose normalized username is empty,
emit the rest. -/
def Mgr.emitChatMessage (cm : ChatMessage) : List Evt :=
  if cm.username.length = 0 then [] else [.chat cm]

/-- The `chat` listener (`handleChat`): trim the raw string, collapse
runs of two or more newlines, drop empty results, parse, and emit via
`emitChatMessage`.  Returns the emitted events. -/
def Mgr.handleChat (raw : List Char) : List Evt :=
  let trimmed := collapseNewlines (trimList raw)
  if trimmed.length = 0 then []
  else
    match parseChatMessage trimmed with
    | some cm => Mgr.emitChatMessage cm
    | none => []

/-- States of the manager reachable from the freshly constructed one by
the operations above (with arbitrary connect outcomes). -/
inductive MgrReachable : Mgr → Prop
  | init : MgrReachable Mgr.init
  | stop {m} : MgrReachable m → MgrReachable m.stop.1
  | start {m} cfg o : MgrReachable m → MgrReachable (Mgr.start cfg o m).1
  | timerFire {m} cfg o : MgrReachable m → MgrReachable (Mgr.timerFire cfg o m).1
  | serverDisconnect {m} cfg : MgrReachable m →
      MgrReachable (Mgr.serverDisconnect cfg m).1

/-! ## `PlayerTracker` (src/playerTracker.ts)

The closure state is the pair of the `count` variable (a JavaScript
number, modelled as `Int` so that non-negativity is a real statement)
and the `Set` of normalized keys, modelled as a list in insertion order
with `Set` semantics (`add` is a no-op on a present key, `delete`
removes the sole occurrence). -/

/-- `normalize` from src/playerTracker.ts: `username.trim().toLowerCase()`.
Case folding is modelled per character on the ASCII range that the
development exercises. -/
def trackerNormalize (username : List Char) : List Char :=
  (trimList username).map Char.toLower

/-- The `createPlayerTracker` closure state. -/
structure Tracker where
  count : Int
  players : List (List Char)
deriving DecidableEq, Repr

/-- The freshly created tracker. -/
def Tracker.empty : Tracker := { count := 0, players := [] }

/-- `increment(username)`: ignore empty normalized keys; add the key if
absent; recompute `count` from the set size; return the new count. -/
def Tracker.increment (t : Tracker) (username : List Char) : Tracker × Int :=
  let key := trackerNormalize username
  if key.length = 0 then (t, t.count)
  else
    let players := if t.players.contains key then t.players else t.players ++ [key]
    let count : Int := players.length
    ({ count := count, players := players }, count)

/-- `decrement(username)`: ignore empty normalized keys; when deletion
succeeds recompute `count`, otherwise leave everything unchanged; return
the current count. -/
def Tracker.decrement (t : Tracker) (username : List Char) : Tracker × Int :=
  let key := trackerNormalize username
  if key.length = 0 then (t, t.count)
  else if t.players.contains key then
    let players := t.players.erase key
    let count : Int := players.length
    ({ count := count, players := players }, count)
  else (t, t.count)

/-- `reset()`: clear the set and recompute `count`. -/
def Tracker.reset (_t : Tracker) : Tracker := { count := 0, players := [] }

/-- Tracker states reachable from the freshly created tracker. -/
inductive TrackerReachable : Tracker → Prop
  | empty : TrackerReachable Tracker.empty
  | increment {t} name : TrackerReachable t → TrackerReachable (t.increment name).1
  | decrement {t} name : TrackerReachable t → TrackerReachable (t.decrement name).1
  | reset {t} : TrackerReachable t → TrackerReachable t.reset

/-! ## `IntegrationManager` (src/integrations/index.ts)

Every dispatch method has the same shape: `Promise.allSettled` over
`integrations.map`, each call wrapped in its own `try`/`catch` whose
handler logs the error.  A sink method call for a fixed round argument
is modelled by its outcome, `Except E Unit`; the per-call wrapper turns
a raised error into a logged one; `allSettled` collects every wrapped
call in order.  The dispatch method itself therefore produces, in the
exception monad of the caller, the list of per-sink logged errors. -/

/-- The `try { await ... } catch (error) { log(error) }` wrapper around
one sink call: a raised error is caught and becomes a logged error
(`some e`); nothing propagates. -/
def guardedCall {E : Type} (call : Except E Unit) : Except E (Option E) :=
  match call with
  | .ok _ => .ok none
  | .error e => .ok (some e)

/-- One dispatch round (the body shared by `startAll`, `stopAll`,
`updatePlayers`, `updateStatus`, `updateGamemode`, `relayChatMessage`
and `sendMessage`): `Promise.allSettled(integrations.map(guarded call))`
in the caller's exception monad. -/
def dispatchRound {E : Type} (calls : List (Except E Unit)) :
    Except E (List (Option E)) :=
  calls.mapM guardedCall

/-- A sink (`BaseIntegration`), reduced to the outcomes of its methods
on given round arguments. -/
structure Sink (E : Type) where
  start : Except E Unit
  stop : Except E Unit
  updatePlayers : List (List Char) → Except E Unit
  updateStatus : Bool → Option Reason → Except E Unit
  updateGamemode : Int → Except E Unit
  relayChatMessage : ChatMessage → Except E Unit
  sendMessage : List Char → Except E Unit

/-- `IntegrationManager.startAll()`. -/
def startAll {E : Type} (sinks : List (Sink E)) : Except E (List (Option E)) :=
  dispatchRound (sinks.map (fun s => s.start))

/-- `IntegrationManager.stopAll()`. -/
def stopAll {E : Type} (sinks : List (Sink E)) : Except E (List (Option E)) :=
  dispatchRound (sinks.map (fun s => s.stop))

/-- `IntegrationManager.updatePlayers(players)`. -/
def updatePlayersAll {E : Type} (sinks : List (Sink E))
    (players : List (List Char)) : Except E (List (Option E)) :=
  dispatchRound (sinks.map (fun s => s.updatePlayers players))

/-- `IntegrationManager.updateStatus(status, context)`. -/
def updateStatusAll {E : Type} (sinks : List (Sink E)) (online : Bool)
    (reason : Option Reason) : Except E (List (Option E)) :=
  dispatchRound (sinks.map (fun s => s.updateStatus online reason))

/-- `IntegrationManager.updateGamemode(gamemode)`. -/
def updateGamemodeAll {E : Type} (sinks : List (Sink E)) (gm : Int) :
    Except E (List (Option E)) :=
  dispatchRound (sinks.map (fun s => s.updateGamemode gm))

/-- `IntegrationManager.relayChatMessage(chatMessage)`. -/
def relayChatMessageAll {E : Type} (sinks : List (Sink E)) (cm : ChatMessage) :
    Except E (List (Option E)) :=
  dispatchRound (sinks.map (fun s => s.relayChatMessage cm))

/-- `IntegrationManager.sendMessage(message)`: empty trimmed messages
are dropped before any sink is called. -/
def sendMessageAll {E : Type} (sinks : List (Sink E)) (message : List Char) :
    Except E (List (Option E)) :=
  if (trimList message).length = 0 then .ok []
  else dispatchRound (sinks.map (fun s => s.sendMessage message))

/-- The per-sink record a dispatch round produces for one sink: `none`
when the sink's call succeeded, `some e` when its raised error was
caught and logged. -/
def settleOutcome {E : Type} (call : Except E Unit) : Option E :=
  match call with
  | .ok _ => none
  | .error e => some e

/-- A concrete sink whose every method succeeds. -/
def sinkOk : Sink Unit :=
  { start := .ok (), stop := .ok (),
    updatePlayers := fun _ => .ok (), updateStatus := fun _ _ => .ok (),
    updateGamemode := fun _ => .ok (), relayChatMessage := fun _ => .ok (),
    sendMessage := fun _ => .ok () }

/-- A concrete sink whose every method throws. -/
def sinkFail : Sink Unit :=
  { start := .error (), stop := .error (),
    updatePlayers := fun _ => .error (), updateStatus := fun _ _ => .error (),
    updateGamemode := fun _ => .error (), relayChatMessage := fun _ => .error (),
    sendMessage := fun _ => .error () }

/-- Is a trace element a `disconnected` emission? -/
def Evt.isDisconnected : Evt → Bool
  | .disconnected _ _ => true
  | _ => false

/-! # Theorems -/

/-- C1: with `maxRetries = 2` and reconnection enabled, three
consecutive connect failures from Stopped produce exactly one
`disconnected` emission, namely
`{reason: retries-exhausted, attempts: 2}`, leave the manager Stopped
with no timer armed; and in general `scheduleReconnect` increments the
attempt counter and, when a positive `maxRetries` is exceeded by the
incremented attempt, emits `disconnected` with reason
retries-exhausted and `attempts = attempt - 1`, stops, and arms no
timer. -/
theorem c1_retries_exhausted :
    ((Mgr.start ⟨true, 2, 5000⟩ .failure Mgr.init).2 ++
        (Mgr.timerFire ⟨true, 2, 5000⟩ .failure
          (Mgr.start ⟨true, 2, 5000⟩ .failure Mgr.init).1).2 ++
        (Mgr.timerFire ⟨true, 2, 5000⟩ .failure
          (Mgr.timerFire ⟨true, 2, 5000⟩ .failure
            (Mgr.start ⟨true, 2, 5000⟩ .failure Mgr.init).1).1).2 =
      [Evt.error, Evt.reconnecting 1 (some 2) 5000,
       Evt.error, Evt.reconnecting 2 (some 2) 5000,
       Evt.error, Evt.disconnected Reason.retriesExhausted (some 2)]) ∧
    ((Mgr.timerFire ⟨true, 2, 5000⟩ .failure
        (Mgr.timerFire ⟨true, 2, 5000⟩ .failure
          (Mgr.start ⟨true, 2, 5000⟩ .failure Mgr.init).1).1).1.state =
        ConnState.stopped ∧
      (Mgr.timerFire ⟨true, 2, 5000⟩ .failure
        (Mgr.timerFire ⟨true, 2, 5000⟩ .failure
          (Mgr.start ⟨true, 2, 5000⟩ .failure Mgr.init).1).1).1.hasTimer =
        false) ∧
    ∀ (cfg : RetryConfig) (m : Mgr), 0 < cfg.maxRetries →
      cfg.maxRetries < m.retryAttempt + 1 →
      Mgr.scheduleReconnect cfg m =
        ({ m with state := ConnState.stopped, hasTimer := false,
                  retryAttempt := m.retryAttempt + 1 },
         [Evt.disconnected Reason.retriesExhausted (some m.retryAttempt)]) := by
  refine ⟨by decide, by decide, ?_⟩
  intro cfg m h1 h2
  simp only [Mgr.scheduleReconnect]
  rw [if_pos ⟨h1, by omega⟩]
  simp [Int.add_sub_cancel]

/-- C1 witness: the general statement instantiated at a concrete
configuration and state. -/
theorem c1_retries_exhausted_witness :
    Mgr.scheduleReconnect ⟨true, 2, 0⟩
        { state := ConnState.connecting, retryAttempt := 2,
          requestedStop := false, hasTimer := true, hasConn := false } =
      ({ state := ConnState.stopped, retryAttempt := 3,
         requestedStop := false, hasTimer := false, hasConn := false },
       [Evt.disconnected Reason.retriesExhausted (some 2)]) := by
  have h := c1_retries_exhausted.2.2 ⟨true, 2, 0⟩
    { state := ConnState.connecting, retryAttempt := 2,
      requestedStop := false, hasTimer := true, hasConn := false }
    (by decide) (by decide)
  simpa using h

/-- C2 counterexample: calling `stop()` twice in a row does NOT produce
only one `disconnected {reason: stopped}` emission — starting from the
freshly constructed manager, the two calls emit it twice. -/
theorem c2_stop_twice_counterexample :
    ((Mgr.stop Mgr.init).2 ++ (Mgr.stop (Mgr.stop Mgr.init).1).2).count
      (Evt.disconnected Reason.stopped none) = 2 := by decide

/-- C2 amended: `stop()` is idempotent on the state — the second call
leaves the state unchanged (Stopped, no timer, no connection) and does
not call `close` again (no double-close error surfaced) — but each of
the two calls emits its own `disconnected {reason: stopped}` event, so
the pair of calls produces two such emissions, one per call. -/
theorem c2_stop_idempotent_amended (m : Mgr) :
    (Mgr.stop (Mgr.stop m).1).1 = (Mgr.stop m).1 ∧
    (Mgr.stop (Mgr.stop m).1).2 = [Evt.disconnected Reason.stopped none] ∧
    (Mgr.stop m).2.count (Evt.disconnected Reason.stopped none) = 1 ∧
    Evt.closeConn ∉ (Mgr.stop (Mgr.stop m).1).2 ∧
    (Mgr.stop m).1.state = ConnState.stopped ∧
    (Mgr.stop m).1.hasTimer = false ∧
    (Mgr.stop m).1.hasConn = false := by
  by_cases h : m.hasConn <;>
    simp [Mgr.stop, h, List.count_append, List.count_cons]

/-- C4: the parser does not capture a `using version <v>` suffix on
join lines — `"Bob joined using version 1.2.3."` matches no pattern and
parses to `null`, although the plain `"Bob joined"` parses to a join
event.  This contradicts the repository's own tests, which expect a
join event with `metadata.clientVersion = "1.2.3"` for versioned join
lines. -/
theorem c4_versioned_join_unparsed :
    parseChatMessage "Bob joined using version 1.2.3.".data = none ∧
    parseChatMessage "Bob joined".data =
      some { type := EventType.join, rawUsername := "Bob".data,
             username := "Bob".data, message := none } := by
  constructor <;> decide

/-- C6: `"[Alice] hello\nworld"` parses to a chat event with display
name `"Alice"` and text `"hello\nworld"` (the interior newline
preserved); and in general any input matched by the bracketed-name
pattern yields kind chat with text the trimmed rest — the bracketed
pattern is consulted before the join/leave/death patterns, so its match
wins. -/
theorem c6_bracketed_chat :
    (parseChatMessage "[Alice] hello\nworld".data =
      some { type := EventType.chat, rawUsername := "Alice".data,
             username := "Alice".data,
             message := some "hello\nworld".data }) ∧
    ∀ s name rest, chatMatch s = some (name, rest) →
      parseChatMessage s =
        some { type := EventType.chat, rawUsername := trimList name,
               username := cleanUsername (trimList name),
               message := some (trimList rest) } := by
  refine ⟨by decide, ?_⟩
  intro s name rest h
  simp [parseChatMessage, h]

/-- C6 witness: the general bracketed-pattern statement applied to a
concrete input. -/
theorem c6_bracketed_chat_witness :
    parseChatMessage "[Bob] hey  ".data =
      some { type := EventType.chat, rawUsername := "Bob".data,
             username := "Bob".data, message := some "hey".data } := by
  have h := c6_bracketed_chat.2 "[Bob] hey  ".data "Bob".data "hey  ".data
    (by decide)
  simpa using h

/-- C10: a `chat` event is emitted by the chat listener only when the
parsed message's normalized username is non-empty — and then the
collapsed-and-trimmed raw string was non-empty and is exactly what the
parser accepted; empty collapsed input, unparseable input, and events
with an empty username produce no emission. -/
theorem c10_no_empty_username_chat (raw : List Char) (cm : ChatMessage)
    (h : Evt.chat cm ∈ Mgr.handleChat raw) :
    cm.username.length ≠ 0 ∧
    (collapseNewlines (trimList raw)).length ≠ 0 ∧
    parseChatMessage (collapseNewlines (trimList raw)) = some cm := by
  unfold Mgr.handleChat at h
  by_cases h0 : (collapseNewlines (trimList raw)).length = 0
  · simp [h0] at h
  · rw [if_neg h0] at h
    cases hp : parseChatMessage (collapseNewlines (trimList raw)) with
    | none => rw [hp] at h; simp at h
    | some cm' =>
      rw [hp] at h
      simp only [Mgr.emitChatMessage] at h
      by_cases hu : cm'.username.length = 0
      · simp [hu] at h
      · rw [if_neg hu] at h
        simp at h
        subst h
        exact ⟨hu, h0, rfl⟩

/-- C10 witness: the theorem applied to a concrete raw chat string that
does produce an emission. -/
theorem c10_no_empty_username_chat_witness :
    ("Alice".data : List Char).length ≠ 0 ∧
    (collapseNewlines (trimList "[Alice] hi".data)).length ≠ 0 ∧
    parseChatMessage (collapseNewlines (trimList "[Alice] hi".data)) =
      some { type := EventType.chat, rawUsername := "Alice".data,
             username := "Alice".data, message := some "hi".data } := by
  have h := c10_no_empty_username_chat "[Alice] hi".data
    { type := EventType.chat, rawUsername := "Alice".data,
      username := "Alice".data, message := some "hi".data }
    (by decide)
  simpa using h

/-- One guarded sink call never propagates an error: it reports the
sink's own outcome. -/
theorem guardedCall_ok {E : Type} (call : Except E Unit) :
    guardedCall call = .ok (settleOutcome call) := by
  cases call <;> rfl

/-- A dispatch round returns, without raising, the list of every sink
call's own settled outcome. -/
theorem dispatchRound_ok {E : Type} (calls : List (Except E Unit)) :
    dispatchRound calls = .ok (calls.map settleOutcome) := by
  induction calls with
  | nil => rfl
  | cons c cs ih =>
    unfold dispatchRound at ih ⊢
    rw [List.mapM_cons, guardedCall_ok, ih]
    rfl

/-- C9: every fan-out dispatch method (`startAll`, `stopAll`,
`updatePlayers`, `updateStatus`, `updateGamemode`, `relayChatMessage`,
`sendMessage`) completes without propagating any sink's failure to the
caller and delivers to every sink in order: the result is the full list
of per-sink settled outcomes, one entry per sink, each reflecting only
that sink's own call — so one sink's thrown error leaves every other
sink's call in the round intact. -/
theorem c9_fanout_isolation {E : Type} (sinks : List (Sink E))
    (players : List (List Char)) (online : Bool) (reason : Option Reason)
    (gm : Int) (cm : ChatMessage) (msg : List Char)
    (hmsg : (trimList msg).length ≠ 0) :
    startAll sinks = .ok (sinks.map (fun s => settleOutcome s.start)) ∧
    stopAll sinks = .ok (sinks.map (fun s => settleOutcome s.stop)) ∧
    updatePlayersAll sinks players =
      .ok (sinks.map (fun s => settleOutcome (s.updatePlayers players))) ∧
    updateStatusAll sinks online reason =
      .ok (sinks.map (fun s => settleOutcome (s.updateStatus online reason))) ∧
    updateGamemodeAll sinks gm =
      .ok (sinks.map (fun s => settleOutcome (s.updateGamemode gm))) ∧
    relayChatMessageAll sinks cm =
      .ok (sinks.map (fun s => settleOutcome (s.relayChatMessage cm))) ∧
    sendMessageAll sinks msg =
      .ok (sinks.map (fun s => settleOutcome (s.sendMessage msg))) := by
  refine ⟨?_, ?_, ?_, ?_, ?_, ?_, ?_⟩
  · rw [startAll, dispatchRound_ok, List.map_map]; rfl
  · rw [stopAll, dispatchRound_ok, List.map_map]; rfl
  · rw [updatePlayersAll, dispatchRound_ok, List.map_map]; rfl
  · rw [updateStatusAll, dispatchRound_ok, List.map_map]; rfl
  · rw [updateGamemodeAll, dispatchRound_ok, List.map_map]; rfl
  · rw [relayChatMessageAll, dispatchRound_ok, List.map_map]; rfl
  · rw [sendMessageAll, if_neg (by simpa using hmsg), dispatchRound_ok,
      List.map_map]
    rfl

/-- C9 witness: a round over a throwing sink followed by a succeeding
sink — the caller sees a normal result recording both outcomes, so the
second sink's delivery survives the first sink's failure. -/
theorem c9_fanout_isolation_witness :
    updatePlayersAll [sinkFail, sinkOk] [] = .ok [some (), none] ∧
    sendMessageAll [sinkFail, sinkOk] "x".data = .ok [some (), none] := by
  have h := c9_fanout_isolation [sinkFail, sinkOk] [] true none 0
    { type := EventType.chat, rawUsername := [], username := [],
      message := none } "x".data (by decide)
  exact ⟨h.2.2.1, h.2.2.2.2.2.2⟩

/-- `scheduleReconnect` never makes a non-Connected manager
Connected. -/
theorem scheduleReconnect_not_connected (cfg : RetryConfig) (m : Mgr)
    (h : m.state ≠ ConnState.connected) :
    (Mgr.scheduleReconnect cfg m).1.state ≠ ConnState.connected := by
  simp only [Mgr.scheduleReconnect]
  by_cases hm : cfg.maxRetries > 0 ∧ m.retryAttempt + 1 > cfg.maxRetries
  · rw [if_pos hm]
    simp
  · rw [if_neg hm]
    simpa using h

/-- `handleConnectionFailure` never leaves the manager Connected. -/
theorem handleConnectionFailure_not_connected (cfg : RetryConfig) (m : Mgr) :
    (Mgr.handleConnectionFailure cfg m).1.state ≠ ConnState.connected := by
  simp only [Mgr.handleConnectionFailure]
  by_cases hr : (m.requestedStop || !cfg.reconnect) = true
  · rw [if_pos hr]
    simp
  · rw [if_neg hr]
    exact scheduleReconnect_not_connected cfg _ (by simp)

/-- `tryConnect` preserves the Connected-implies-connection
invariant. -/
theorem tryConnect_inv (cfg : RetryConfig) (o : ConnectOutcome) (m : Mgr)
    (hm : m.state = ConnState.connected → m.hasConn = true) :
    (Mgr.tryConnect cfg o m).1.state = ConnState.connected →
      (Mgr.tryConnect cfg o m).1.hasConn = true := by
  simp only [Mgr.tryConnect]
  by_cases hr : m.requestedStop = true
  · rw [if_pos hr]
    exact hm
  · rw [if_neg hr]
    cases o
    · simp
    · intro hs
      exact absurd hs (handleConnectionFailure_not_connected cfg _)

/-- In every reachable manager state, being Connected implies a
connection object is held. -/
theorem mgr_connected_hasConn {m : Mgr} (h : MgrReachable m) :
    m.state = ConnState.connected → m.hasConn = true := by
  induction h with
  | init => intro hs; simp [Mgr.init] at hs
  | stop h ih => intro hs; simp [Mgr.stop] at hs
  | @start m cfg o h ih =>
    simp only [Mgr.start]
    by_cases hs0 : m.state ≠ ConnState.stopped
    · rw [if_pos hs0]
      exact ih
    · rw [if_neg hs0]
      refine tryConnect_inv cfg o _ ?_
      intro hs
      simp at hs
  | @timerFire m cfg o h ih =>
    simp only [Mgr.timerFire]
    by_cases hr : m.requestedStop = true
    · rw [if_pos hr]
      exact ih
    · rw [if_neg hr]
      exact tryConnect_inv cfg o _ ih
  | @serverDisconnect m cfg h ih =>
    simp only [Mgr.serverDisconnect]
    by_cases hr : m.requestedStop = true
    · rw [if_pos hr]
      intro hs
      simp at hs
    · rw [if_neg hr]
      by_cases hc : (!cfg.reconnect) = true
      · rw [if_pos hc]
        intro hs
        simp at hs
      · rw [if_neg hc]
        intro hs
        exact absurd hs (scheduleReconnect_not_connected cfg _ (by simp))

/-- C3: `sendChat` first trims its input and silently does nothing on
an empty result; on a non-empty trimmed text it forwards the trimmed
text to the active session when the manager (in any reachable state) is
Connected, and raises the "not connected" error when it is not
Connected. -/
theorem c3_sendChat_connected_only (m : Mgr) (text : List Char)
    (hr : MgrReachable m) :
    (trimList text = [] → Mgr.sendChat m text = .ok none) ∧
    (trimList text ≠ [] → m.state = ConnState.connected →
      Mgr.sendChat m text = .ok (some (trimList text))) ∧
    (trimList text ≠ [] → m.state ≠ ConnState.connected →
      Mgr.sendChat m text =
        .error "Cannot send chat: not connected to Cubyz server.".data) := by
  refine ⟨?_, ?_, ?_⟩
  · intro he
    simp [Mgr.sendChat, he]
  · intro hne hc
    have hconn : m.hasConn = true := mgr_connected_hasConn hr hc
    simp [Mgr.sendChat, hne, hc, hconn]
  · intro hne hc
    simp [Mgr.sendChat, hne, hc]

/-- C3 witness: the theorem applied to a reachable Connected state and
to a not-Connected state. -/
theorem c3_sendChat_connected_only_witness :
    Mgr.sendChat (Mgr.start ⟨true, 0, 0⟩ ConnectOutcome.success Mgr.init).1
        " hi ".data = .ok (some "hi".data) ∧
    Mgr.sendChat Mgr.init "hi".data =
      .error "Cannot send chat: not connected to Cubyz server.".data := by
  constructor
  · have h := (c3_sendChat_connected_only
      (Mgr.start ⟨true, 0, 0⟩ ConnectOutcome.success Mgr.init).1 " hi ".data
      (MgrReachable.start ⟨true, 0, 0⟩ ConnectOutcome.success
        MgrReachable.init)).2.1 (by decide) (by decide)
    simpa using h
  · exact (c3_sendChat_connected_only Mgr.init "hi".data
      MgrReachable.init).2.2 (by decide) (by decide)

/-- `increment` with a normalized key that is already a member of a
coherent tracker (its `count` caches the set size) changes nothing. -/
theorem increment_mem_fixed (t : Tracker) (key a : List Char)
    (ha : trackerNormalize a = key) (hk : key ≠ [])
    (hmem : t.players.contains key = true)
    (hinv : t.count = t.players.length) :
    (t.increment a).1 = t := by
  obtain ⟨c, ps⟩ := t
  simp only [Tracker.increment, ha]
  rw [if_neg (by simpa using hk)]
  simp only [hmem, if_pos]
  simp at hinv
  simp [hinv]

/-- Folding further `increment` calls for a key already present in a
coherent tracker leaves the tracker unchanged. -/
theorem foldl_increment_fixed (key : List Char) (args : List (List Char))
    (hk : key ≠ []) (hargs : ∀ a ∈ args, trackerNormalize a = key)
    (t : Tracker) (hmem : t.players.contains key = true)
    (hinv : t.count = t.players.length) :
    args.foldl (fun s a => (s.increment a).1) t = t := by
  induction args with
  | nil => rfl
  | cons a as ih =>
    simp only [List.foldl_cons]
    rw [increment_mem_fixed t key a (hargs a (by simp)) hk hmem hinv]
    exact ih (fun b hb => hargs b (by simp [hb]))

/-- C7: on a coherent tracker, a non-empty sequence of `increment`
calls whose arguments all trim-and-case-fold to the same non-empty key
raises the count by exactly one when the key was absent and by zero
when it was already present — case-variant respellings never add more
than one member. -/
theorem c7_increment_case_idempotent (t : Tracker) (key : List Char)
    (args : List (List Char)) (hinv : t.count = t.players.length)
    (hk : key ≠ []) (hargs : ∀ a ∈ args, trackerNormalize a = key)
    (hne : args ≠ []) :
    (args.foldl (fun s a => (s.increment a).1) t).count =
      t.count + (if t.players.contains key then 0 else 1) := by
  cases args with
  | nil => exact absurd rfl hne
  | cons a as =>
    have ha : trackerNormalize a = key := hargs a (by simp)
    have has : ∀ b ∈ as, trackerNormalize b = key :=
      fun b hb => hargs b (by simp [hb])
    simp only [List.foldl_cons]
    by_cases hmem : t.players.contains key = true
    · have hmem' : key ∈ t.players := by simpa using hmem
      rw [increment_mem_fixed t key a ha hk hmem hinv,
        foldl_increment_fixed key as hk has t hmem hinv]
      simp [hmem']
    · have hmem' : key ∉ t.players := by simpa using hmem
      have h1 : (t.increment a).1 =
          ⟨((t.players.length : Int) + 1), t.players ++ [key]⟩ := by
        simp only [Tracker.increment, ha]
        rw [if_neg (by simpa using hk)]
        simp [hmem']
      rw [h1,
        foldl_increment_fixed key as hk has _ (by simp) (by simp),
        hinv]
      simp [hmem']

/-- C7 witness: three case-variant spellings of one absent name raise
the count of the fresh tracker by exactly one. -/
theorem c7_increment_case_idempotent_witness :
    (["Alice".data, "ALICE".data, " alice ".data].foldl
        (fun s a => (s.increment a).1) Tracker.empty).count =
      Tracker.empty.count +
        (if Tracker.empty.players.contains "alice".data then 0 else 1) :=
  c7_increment_case_idempotent Tracker.empty "alice".data
    ["Alice".data, "ALICE".data, " alice ".data] rfl (by decide)
    (by decide) (by decide)

/-- Every reachable tracker state is coherent: the cached `count`
equals the size of the set. -/
theorem tracker_count_eq_size {t : Tracker} (h : TrackerReachable t) :
    t.count = t.players.length := by
  induction h with
  | empty => rfl
  | @increment t1 name h ih =>
    simp only [Tracker.increment]
    by_cases h0 : (trackerNormalize name).length = 0
    · rw [if_pos h0]; exact ih
    · rw [if_neg h0]
  | @decrement t1 name h ih =>
    simp only [Tracker.decrement]
    by_cases h0 : (trackerNormalize name).length = 0
    · rw [if_pos h0]; exact ih
    · rw [if_neg h0]
      by_cases hmem : t1.players.contains (trackerNormalize name) = true
      · rw [if_pos hmem]
      · rw [if_neg hmem]; exact ih
  | reset h ih => rfl

/-- C8: in every reachable tracker state the count is non-negative and
equals the size of the underlying set; `decrement` of a key absent from
the set returns the current count and changes nothing; `decrement`
never drives the count below zero; and `reset` always yields count 0
and an empty snapshot. -/
theorem c8_tracker_invariants (t : Tracker) (h : TrackerReachable t) :
    0 ≤ t.count ∧ t.count = t.players.length ∧
    (∀ name, t.players.contains (trackerNormalize name) = false →
      t.decrement name = (t, t.count)) ∧
    (∀ name, 0 ≤ (t.decrement name).1.count) ∧
    (∀ t' : Tracker, t'.reset = { count := 0, players := [] }) := by
  have hinv := tracker_count_eq_size h
  refine ⟨by rw [hinv]; exact Int.natCast_nonneg _, hinv, ?_, ?_, fun t' => rfl⟩
  · intro name hmem
    simp only [Tracker.decrement]
    by_cases h0 : (trackerNormalize name).length = 0
    · rw [if_pos h0]
    · rw [if_neg h0, if_neg (by simp only [hmem]; exact Bool.false_ne_true)]

  · intro name
    simp only [Tracker.decrement]
    by_cases h0 : (trackerNormalize name).length = 0
    · rw [if_pos h0]; rw [hinv]; exact Int.natCast_nonneg _
    · rw [if_neg h0]
      by_cases hmem : t.players.contains (trackerNormalize name) = true
      · rw [if_pos hmem]; exact Int.natCast_nonneg _
      · rw [if_neg hmem]; rw [hinv]; exact Int.natCast_nonneg _

/-- C8 witness: the theorem applied to a reachable one-element tracker
and a name that is not a member. -/
theorem c8_tracker_invariants_witness :
    0 ≤ (Tracker.empty.increment "Alice".data).1.count ∧
    (Tracker.empty.increment "Alice".data).1.decrement "Bob".data =
      ((Tracker.empty.increment "Alice".data).1,
       (Tracker.empty.increment "Alice".data).1.count) := by
  have h := c8_tracker_invariants (Tracker.empty.increment "Alice".data).1
    (TrackerReachable.increment "Alice".data TrackerReachable.empty)
  exact ⟨h.1, h.2.2.1 "Bob".data (by decide)⟩

/-- A hexadecimal digit is not the section marker. -/
theorem isHexDigit_ne_section {c : Char} (h : isHexDigit c = true) :
    c ≠ '§' := by
  intro hc
  subst hc
  exact absurd h (by decide)

/-- A hexadecimal digit is not the colour marker. -/
theorem isHexDigit_ne_hash {c : Char} (h : isHexDigit c = true) :
    c ≠ '#' := by
  intro hc
  subst hc
  exact absurd h (by decide)

/-- A decoration character is not the section marker. -/
theorem isDecorChar_ne_section {c : Char} (h : isDecorChar c = true) :
    c ≠ '§' := by
  intro hc
  subst hc
  exact absurd h (by decide)

/-- A decoration character is not the colour marker. -/
theorem isDecorChar_ne_hash {c : Char} (h : isDecorChar c = true) :
    c ≠ '#' := by
  intro hc
  subst hc
  exact absurd h (by decide)

/-- A payload character is not the section marker. -/
theorem isPayloadChar_ne_section {c : Char} (h : isPayloadChar c = true) :
    c ≠ '§' := by
  intro hc
  subst hc
  exact absurd h (by decide)

/-- A payload character is not the colour marker. -/
theorem isPayloadChar_ne_hash {c : Char} (h : isPayloadChar c = true) :
    c ≠ '#' := by
  intro hc
  subst hc
  exact absurd h (by decide)

/-- A payload character is not a decoration character. -/
theorem isPayloadChar_not_decor {c : Char} (h : isPayloadChar c = true) :
    isDecorChar c = false := by
  by_contra hd
  have hd' : isDecorChar c = true := by
    cases hdc : isDecorChar c
    · exact absurd hdc hd
    · rfl
  simp only [isDecorChar, Bool.or_eq_true, decide_eq_true_eq,
    or_assoc] at hd'
  rcases hd' with rfl | rfl | rfl | rfl | rfl <;>
    exact absurd h (by decide)

/-- A payload character belongs to the allowed class of
`cleanUsername`. -/
theorem isPayloadChar_allowed {c : Char} (h : isPayloadChar c = true) :
    isAllowedChar c = true := by
  simp only [isPayloadChar, Bool.or_eq_true] at h
  rcases h with h | h
  · rcases h with h | h <;> simp [isAllowedChar, h]
  · simp [isAllowedChar, h]

/-- A payload character is not whitespace. -/
theorem isPayloadChar_not_ws {c : Char} (h : isPayloadChar c = true) :
    isWsChar c = false := by
  by_contra hw
  have hw' : isWsChar c = true := by
    cases hwc : isWsChar c
    · exact absurd hwc hw
    · rfl
  simp only [isWsChar, Bool.or_eq_true, decide_eq_true_eq,
    or_assoc] at hw'
  rcases hw' with rfl | rfl | rfl | rfl | rfl | rfl | rfl | rfl | rfl |
    rfl <;> exact absurd h (by decide)

/-- Dropping a satisfied-by-nothing prefix is the identity. -/
theorem dropWhile_eq_self_of_none (p : Char → Bool) (xs : List Char)
    (h : ∀ c ∈ xs, p c = false) : xs.dropWhile p = xs := by
  cases xs with
  | nil => rfl
  | cons c cs => simp [List.dropWhile, h c (by simp)]

/-- `trim` of a string with no whitespace at all is the identity. -/
theorem trimList_eq_self (xs : List Char)
    (h : ∀ c ∈ xs, isWsChar c = false) : trimList xs = xs := by
  unfold trimList
  rw [dropWhile_eq_self_of_none _ _ h,
    dropWhile_eq_self_of_none _ _
      (fun c hc => h c (List.mem_reverse.mp hc)),
    List.reverse_reverse]

/-- A list of exactly six elements is six explicit elements. -/
theorem exists_six (h : List Char) (hlen : h.length = 6) :
    ∃ a b c d e f, h = [a, b, c, d, e, f] := by
  rcases h with _ | ⟨a, h⟩
  · simp at hlen
  rcases h with _ | ⟨b, h⟩
  · simp at hlen
  rcases h with _ | ⟨c, h⟩
  · simp at hlen
  rcases h with _ | ⟨d, h⟩
  · simp at hlen
  rcases h with _ | ⟨e, h⟩
  · simp at hlen
  rcases h with _ | ⟨f, h⟩
  · simp at hlen
  rcases h with _ | ⟨g, h⟩
  · exact ⟨a, b, c, d, e, f, rfl⟩
  · simp [List.length_cons] at hlen

/-- Six explicit hexadecimal digits at the head satisfy the six-hex
test. -/
theorem startsWithSixHex_of (a b c d e f : Char) (t : List Char)
    (ha : isHexDigit a = true) (hb : isHexDigit b = true)
    (hc : isHexDigit c = true) (hd : isHexDigit d = true)
    (he : isHexDigit e = true) (hf : isHexDigit f = true) :
    startsWithSixHex (a :: b :: c :: d :: e :: f :: t) = true := by
  simp [startsWithSixHex, ha, hb, hc, hd, he, hf]

/-- The section-colour scanner removes a leading `§#` + six-hex code. -/
theorem stripSectionColor_code (a b c d e f : Char) (t : List Char)
    (ha : isHexDigit a = true) (hb : isHexDigit b = true)
    (hc : isHexDigit c = true) (hd : isHexDigit d = true)
    (he : isHexDigit e = true) (hf : isHexDigit f = true) :
    stripSectionColor ('§' :: '#' :: a :: b :: c :: d :: e :: f :: t) =
      stripSectionColor t := by
  rw [stripSectionColor.eq_def]
  simp [isSectionTail, startsWithSixHex, ha, hb, hc, hd, he, hf]

/-- The section-colour scanner passes over any character other than the
section marker. -/
theorem stripSectionColor_cons_ne (c : Char) (rest : List Char)
    (hc : c ≠ '§') :
    stripSectionColor (c :: rest) = c :: stripSectionColor rest := by
  rw [stripSectionColor.eq_def]
  simp [hc]

/-- The section-colour scanner passes over a section-marker-free
prefix. -/
theorem stripSectionColor_append (xs ys : List Char)
    (hxs : ∀ c ∈ xs, c ≠ '§') :
    stripSectionColor (xs ++ ys) = xs ++ stripSectionColor ys := by
  induction xs with
  | nil => simp
  | cons c cs ih =>
    rw [List.cons_append,
      stripSectionColor_cons_ne c (cs ++ ys) (hxs c (by simp)),
      ih (fun b hb => hxs b (by simp [hb])), List.cons_append]

/-- A trailing block of `§#` + six-hex codes is removed entirely. -/
theorem stripSectionColor_codes_nil (sec : List (List Char))
    (hsec : ∀ h ∈ sec, h.length = 6 ∧ ∀ c ∈ h, isHexDigit c = true) :
    stripSectionColor ((sec.map (fun h => '§' :: '#' :: h)).flatten) = [] := by
  induction sec with
  | nil => rfl
  | cons h hs ih =>
    obtain ⟨hlen, hhex⟩ := hsec h (by simp)
    obtain ⟨a, b, c, d, e, f, rfl⟩ := exists_six h hlen
    have := stripSectionColor_code a b c d e f
      ((hs.map (fun h => '§' :: '#' :: h)).flatten)
      (hhex a (by simp)) (hhex b (by simp)) (hhex c (by simp))
      (hhex d (by simp)) (hhex e (by simp)) (hhex f (by simp))
    simp only [List.map_cons, List.flatten_cons]
    rw [show ('§' :: '#' :: [a, b, c, d, e, f]) ++
        (hs.map (fun h => '§' :: '#' :: h)).flatten =
        '§' :: '#' :: a :: b :: c :: d :: e :: f ::
          (hs.map (fun h => '§' :: '#' :: h)).flatten by simp]
    rw [this]
    exact ih (fun h hm => hsec h (by simp [hm]))

/-- The colour scanner removes a leading `#` + six-hex code. -/
theorem stripColorCodes_code (a b c d e f : Char) (t : List Char)
    (ha : isHexDigit a = true) (hb : isHexDigit b = true)
    (hc : isHexDigit c = true) (hd : isHexDigit d = true)
    (he : isHexDigit e = true) (hf : isHexDigit f = true) :
    stripColorCodes ('#' :: a :: b :: c :: d :: e :: f :: t) =
      stripColorCodes t := by
  rw [stripColorCodes.eq_def]
  simp [startsWithSixHex, ha, hb, hc, hd, he, hf]

/-- The colour scanner passes over any character other than the colour
marker. -/
theorem stripColorCodes_cons_ne (c : Char) (rest : List Char)
    (hc : c ≠ '#') :
    stripColorCodes (c :: rest) = c :: stripColorCodes rest := by
  rw [stripColorCodes.eq_def]
  simp [hc]

/-- The colour scanner passes over a colour-marker-free prefix. -/
theorem stripColorCodes_append (xs ys : List Char)
    (hxs : ∀ c ∈ xs, c ≠ '#') :
    stripColorCodes (xs ++ ys) = xs ++ stripColorCodes ys := by
  induction xs with
  | nil => simp
  | cons c cs ih =>
    rw [List.cons_append,
      stripColorCodes_cons_ne c (cs ++ ys) (hxs c (by simp)),
      ih (fun b hb => hxs b (by simp [hb])), List.cons_append]

/-- The colour scanner turns a block of per-character colour units
(`#` + six hex + payload character) followed by a marker-free suffix
into the payload characters followed by that suffix. -/
theorem stripColorCodes_units (ps : List (List Char × Char))
    (decorR : List Char)
    (hps : ∀ p ∈ ps, p.1.length = 6 ∧ (∀ c ∈ p.1, isHexDigit c = true) ∧
      isPayloadChar p.2 = true)
    (hdr : ∀ c ∈ decorR, c ≠ '#') :
    stripColorCodes
        ((ps.map (fun p => '#' :: (p.1 ++ [p.2]))).flatten ++ decorR) =
      ps.map Prod.snd ++ decorR := by
  induction ps with
  | nil =>
    simp only [List.map_nil, List.flatten_nil, List.nil_append]
    have h := stripColorCodes_append decorR [] hdr
    rw [List.append_nil, show stripColorCodes ([] : List Char) = [] from rfl,
      List.append_nil] at h
    exact h
  | cons p ps ih =>
    obtain ⟨hlen, hhex, hpay⟩ := hps p (by simp)
    obtain ⟨a, b, c, d, e, f, h6⟩ := exists_six p.1 hlen
    simp only [List.map_cons, List.flatten_cons]
    rw [show ('#' :: (p.1 ++ [p.2]) ++
          (ps.map (fun p => '#' :: (p.1 ++ [p.2]))).flatten) ++ decorR =
        '#' :: a :: b :: c :: d :: e :: f :: (p.2 ::
          ((ps.map (fun p => '#' :: (p.1 ++ [p.2]))).flatten ++ decorR))
        by simp [h6]]
    rw [stripColorCodes_code a b c d e f _
      (hhex a (by simp [h6])) (hhex b (by simp [h6])) (hhex c (by simp [h6]))
      (hhex d (by simp [h6])) (hhex e (by simp [h6])) (hhex f (by simp [h6]))]
    rw [stripColorCodes_cons_ne p.2 _ (isPayloadChar_ne_hash hpay)]
    rw [ih (fun q hq => hps q (by simp [hq]))]
    simp

/-- C5: `cleanUsername` on a raw name made of per-character colour
units (`#` + six hex digits + one payload character), optionally
wrapped in decoration characters and followed by `§`-marker colour
codes, returns exactly the payload characters in order — including
non-Latin (e.g. Cyrillic) payload letters. -/
theorem c5_colorcode_roundtrip (ps : List (List Char × Char))
    (decorL decorR : List Char) (sec : List (List Char))
    (hps : ∀ p ∈ ps, p.1.length = 6 ∧ (∀ c ∈ p.1, isHexDigit c = true) ∧
      isPayloadChar p.2 = true)
    (hdl : ∀ c ∈ decorL, isDecorChar c = true)
    (hdr : ∀ c ∈ decorR, isDecorChar c = true)
    (hsec : ∀ h ∈ sec, h.length = 6 ∧ ∀ c ∈ h, isHexDigit c = true) :
    cleanUsername (decorL ++
        (ps.map (fun p => '#' :: (p.1 ++ [p.2]))).flatten ++ decorR ++
        (sec.map (fun h => '§' :: '#' :: h)).flatten) =
      ps.map Prod.snd := by
  have hunits : ∀ c ∈ (ps.map (fun p => '#' :: (p.1 ++ [p.2]))).flatten,
      c = '#' ∨ isHexDigit c = true ∨ isPayloadChar c = true := by
    intro c hc
    obtain ⟨u, hu, hcu⟩ := List.mem_flatten.mp hc
    obtain ⟨p, hp, rfl⟩ := List.mem_map.mp hu
    rcases List.mem_cons.mp hcu with rfl | hcu'
    · exact Or.inl rfl
    · rcases List.mem_append.mp hcu' with hh | hl
      · exact Or.inr (Or.inl ((hps p hp).2.1 c hh))
      · rcases List.mem_singleton.mp hl with rfl
        exact Or.inr (Or.inr (hps p hp).2.2)
  have hpays : ∀ c ∈ ps.map Prod.snd, isPayloadChar c = true := by
    intro c hc
    obtain ⟨p, hp, rfl⟩ := List.mem_map.mp hc
    exact (hps p hp).2.2
  simp only [cleanUsername]
  have h1 : stripSectionColor ((decorL ++
        (ps.map (fun p => '#' :: (p.1 ++ [p.2]))).flatten ++ decorR) ++
        (sec.map (fun h => '§' :: '#' :: h)).flatten) =
      decorL ++ (ps.map (fun p => '#' :: (p.1 ++ [p.2]))).flatten ++
        decorR := by
    rw [stripSectionColor_append _ _ ?_, stripSectionColor_codes_nil sec hsec,
      List.append_nil]
    intro c hc
    rcases List.mem_append.mp hc with hc' | hcr
    · rcases List.mem_append.mp hc' with hcl | hcu
      · exact isDecorChar_ne_section (hdl c hcl)
      · rcases hunits c hcu with rfl | hhex | hpay
        · decide
        · exact isHexDigit_ne_section hhex
        · exact isPayloadChar_ne_section hpay
    · exact isDecorChar_ne_section (hdr c hcr)
  rw [show decorL ++ (ps.map (fun p => '#' :: (p.1 ++ [p.2]))).flatten ++
      decorR ++ (sec.map (fun h => '§' :: '#' :: h)).flatten =
      (decorL ++ (ps.map (fun p => '#' :: (p.1 ++ [p.2]))).flatten ++
        decorR) ++ (sec.map (fun h => '§' :: '#' :: h)).flatten from rfl]
  rw [h1]
  have h2 : stripColorCodes (decorL ++
        (ps.map (fun p => '#' :: (p.1 ++ [p.2]))).flatten ++ decorR) =
      decorL ++ (ps.map Prod.snd ++ decorR) := by
    rw [List.append_assoc,
      stripColorCodes_append decorL _
        (fun c hc => isDecorChar_ne_hash (hdl c hc)),
      stripColorCodes_units ps decorR hps
        (fun c hc => isDecorChar_ne_hash (hdr c hc))]
  rw [h2]
  have e1 : decorL.filter (fun c => !isDecorChar c) = [] :=
    List.filter_eq_nil_iff.mpr (fun c hc => by simp [hdl c hc])
  have e2 : decorR.filter (fun c => !isDecorChar c) = [] :=
    List.filter_eq_nil_iff.mpr (fun c hc => by simp [hdr c hc])
  have e3 : (ps.map Prod.snd).filter (fun c => !isDecorChar c) =
      ps.map Prod.snd :=
    List.filter_eq_self.mpr
      (fun c hc => by simp [isPayloadChar_not_decor (hpays c hc)])
  have f1 : (decorL ++ (ps.map Prod.snd ++ decorR)).filter
      (fun c => !isDecorChar c) = ps.map Prod.snd := by
    rw [List.filter_append, List.filter_append, e1, e2, e3]
    simp
  rw [f1]
  rw [List.filter_eq_self.mpr (fun c hc => isPayloadChar_allowed (hpays c hc))]
  exact trimList_eq_self _ (fun c hc => isPayloadChar_not_ws (hpays c hc))

/-- C5 witness: a decorated two-character colour-coded Cyrillic name
with a trailing section colour code round-trips to its two payload
letters. -/
theorem c5_colorcode_roundtrip_witness :
    cleanUsername "**#FF0000д#00FF00а*§#ffff00".data = "да".data := by
  have h := c5_colorcode_roundtrip
    [("FF0000".data, 'д'), ("00FF00".data, 'а')]
    "**".data "*".data ["ffff00".data]
    (by decide) (by decide) (by decide) (by decide)
  simpa using h

end CubyzRelay
